import Mathlib

/-!
# Verification of the snap-l10n translation-status inference engine

Shallow embedding of `src/snap_l10n/snapd.py` (registry-response handling,
locale-tree probe, desktop-entry probe, status classification) and of the
export-row construction in `src/snap_l10n/main.py` (`_on_export_save`).

The filesystem is modelled as finite lists of directory and file paths
(normalized component lists), a list of directories whose listing raises
`PermissionError`, and a parse-result assignment for desktop-entry files.
Python exceptions are modelled with `Except`.
-/

namespace SnapL10n

mutual

/-- JSON values as produced by `json.loads` (numbers restricted to integers,
which covers every value the claims touch). Also used for generic Python
values flowing through `snap.get(...)`. -/
inductive JVal where
  | null
  | bool (b : Bool)
  | num (n : Int)
  | str (s : String)
  | arr (xs : JArr)
  | obj (kvs : JObj)
deriving DecidableEq

/-- A JSON array / Python list. -/
inductive JArr where
  | nil
  | cons (v : JVal) (tl : JArr)
deriving DecidableEq

/-- A JSON object / Python dict, as an ordered key-value sequence. -/
inductive JObj where
  | nil
  | cons (k : String) (v : JVal) (tl : JObj)
deriving DecidableEq

end

/-- Build a `JObj` from a list of key-value pairs. -/
def JObj.ofList : List (String × JVal) → JObj
  | [] => .nil
  | (k, v) :: rest => .cons k v (JObj.ofList rest)

/-- Whether a JSON array is empty. -/
def JArr.isNil : JArr → Bool
  | .nil => true
  | .cons _ _ => false

/-- Whether a JSON object is empty. -/
def JObj.isNil : JObj → Bool
  | .nil => true
  | .cons _ _ _ => false

/-- Python `dict.get(k)` on a JSON object (keys distinct, as `json.loads`
produces): `some v` when the key is present (even with value `null`),
`none` when absent. -/
def JObj.get : JObj → String → Option JVal
  | .nil, _ => none
  | .cons k v tl, key => if k = key then some v else tl.get key

/-- Python truthiness (`if publisher:` etc.): `None`, `False`, `0`, `""`,
`[]`, and an empty dict are falsy; everything else is truthy. -/
def pyTruthy : JVal → Bool
  | .null => false
  | .bool b => b
  | .num n => decide (n ≠ 0)
  | .str s => decide (s ≠ "")
  | .arr xs => !xs.isNil
  | .obj kvs => !kvs.isNil

/-- Python `a or b`: returns `a` when truthy, else `b`. -/
def pyOr (a b : JVal) : JVal := if pyTruthy a then a else b

mutual

/-- Python `repr` for the modelled values (string-escape refinements such as
quote escaping inside strings are not modelled; no claim depends on them). -/
def pyRepr : JVal → String
  | .null => "None"
  | .bool true => "True"
  | .bool false => "False"
  | .num n => toString n
  | .str s => "'" ++ s ++ "'"
  | .arr xs => "[" ++ String.intercalate ", " (pyReprArr xs) ++ "]"
  | .obj kvs => "\x7b" ++ String.intercalate ", " (pyReprObj kvs) ++ "\x7d"

/-- `repr` of each element of a Python list. -/
def pyReprArr : JArr → List String
  | .nil => []
  | .cons x xs => pyRepr x :: pyReprArr xs

/-- `repr` of each `key: value` pair of a Python dict. -/
def pyReprObj : JObj → List String
  | .nil => []
  | .cons k v kvs => ("'" ++ k ++ "': " ++ pyRepr v) :: pyReprObj kvs

end

/-- Python `str(x)`: the string itself for strings, `repr`-style rendering
otherwise (`str(True) = "True"`, `str(None) = "None"`, `str(3) = "3"`). -/
def pyStr : JVal → String
  | .str s => s
  | v => pyRepr v

/-- Split a character list at every occurrence of the separator, keeping
empty pieces — the semantics of Python `str.split(sep)` with a one-character
separator (every separator the source uses is one character). -/
def chSplit (sep : Char) : List Char → List (List Char)
  | [] => [[]]
  | c :: rest =>
      if c = sep then [] :: chSplit sep rest
      else
        match chSplit sep rest with
        | [] => [[c]]
        | h :: t => (c :: h) :: t

/-- Python `s.split(sep)` for a one-character separator. -/
def splitOnChar (sep : Char) (s : String) : List String :=
  (chSplit sep s.data).map (fun l => String.mk l)

/-- Python `s.rstrip("]")`: drop every trailing `]`. -/
def rstripRB (s : String) : String :=
  String.mk ((s.data.reverse.dropWhile (fun c => c = ']')).reverse)

/-- Python `sub in s` for a one-character `sub`. -/
def strHasChar (c : Char) (s : String) : Bool := s.data.contains c

/-- Python `str.lower()` (ASCII case mapping, which covers desktop-entry
keys; `configparser`'s default `optionxform` is `str.lower`). -/
def lowerStr (s : String) : String := String.mk (s.data.map Char.toLower)

/-- Whether a name starts with a dot (a hidden filesystem entry). -/
def startsWithDot (s : String) : Bool :=
  match s.data with
  | [] => false
  | c :: _ => c = '.'

/-- Whether `a` is a suffix of `b` (both as character lists). -/
def listSuffix (a b : List Char) : Bool := a.reverse.isPrefixOf b.reverse

/-- Whether the file name ends in `.desktop`. -/
def endsWithDesktop (s : String) : Bool := listSuffix ".desktop".data s.data

/-- Code-point lexicographic `≤` on character lists — the order Python uses
to compare strings. -/
def chLe : List Char → List Char → Bool
  | [], _ => true
  | _ :: _, [] => false
  | a :: as, b :: bs => if a < b then true else if b < a then false else chLe as bs

/-- Code-point lexicographic `<` on character lists. -/
def chLt : List Char → List Char → Bool
  | [], [] => false
  | [], _ :: _ => true
  | _ :: _, [] => false
  | a :: as, b :: bs => if a < b then true else if b < a then false else chLt as bs

/-- Python string comparison `a <= b` (code-point lexicographic). -/
def pyLe (a b : String) : Prop := chLe a.data b.data = true

instance : DecidableRel pyLe :=
  fun a b => inferInstanceAs (Decidable (chLe a.data b.data = true))

/-- Python string comparison `a < b` (code-point lexicographic). -/
def strLtB (a b : String) : Bool := chLt a.data b.data

/-- Python `sorted(...)` on a list of strings: ascending in code-point
lexicographic order (strictly ascending once the input has no duplicates). -/
def pySorted (l : List String) : List String :=
  List.insertionSort pyLe l

/-- A filesystem path as its list of components, with `.` and `..` already
resolved (the kernel resolves them during lookup). -/
abbrev Path := List String

/-- POSIX resolution of a path string into normalized components: split on
`/`, drop empty and `.` components, resolve `..` against the stack
(`/..` stays at the root). Models what the kernel does with the raw strings
the Python code hands to `os.path` / `glob`. -/
def normalize (s : String) : Path :=
  (splitOnChar '/' s).foldl
    (fun acc c =>
      if c = "" ∨ c = "." then acc
      else if c = ".." then acc.dropLast
      else acc ++ [c]) []

/-- A desktop-entry file's parse outcome under `configparser.RawConfigParser`:
`none` when `cp.read` raises (malformed file), `some sections` when it
parses, each section carrying its name as written and its option keys as
written in the file (the parser's `optionxform` lowercasing is applied at
the point of `cp.options`, see `options_of`). -/
abbrev DeskParse := Option (List (String × List String))

/-- Filesystem state: directories, regular files, directories whose
`os.listdir` raises `PermissionError`, and the parse outcome of each
desktop-entry file (files not listed parse to no sections, as
`configparser.read` silently yields for unreadable or non-INI-shaped paths). -/
structure FS where
  dirs : List Path
  files : List Path
  denied : List Path
  contents : List (Path × DeskParse)
deriving DecidableEq

/-- `os.path.isdir` (never raises; stat errors surface as `False`). -/
def isdir (fs : FS) (p : Path) : Bool := decide (p ∈ fs.dirs)

/-- The directory-entry names of `p`: last components of the recorded
directories and files directly below `p`. -/
def childNames (fs : FS) (p : Path) : List String :=
  ((fs.dirs ++ fs.files).filterMap
    (fun q => if q.dropLast = p then q.getLast? else none)).dedup

/-- `os.listdir`: raises `PermissionError` on a denied directory, otherwise
returns the entry names. -/
def listdir (fs : FS) (p : Path) : Except Unit (List String) :=
  if p ∈ fs.denied then .error () else .ok (childNames fs p)

/-- The per-entry success condition of the locale-tree probe: the entry's
`LC_MESSAGES` subdirectory exists and has at least one directory entry
(file or subdirectory). -/
def lcOK (fs : FS) (ld : Path) (x : String) : Prop :=
  isdir fs (ld ++ [x, "LC_MESSAGES"]) = true ∧
    childNames fs (ld ++ [x, "LC_MESSAGES"]) ≠ []

/-- The parse outcome `configparser` yields for path `p`. -/
def getContent (fs : FS) (p : Path) : DeskParse :=
  (((fs.contents.find? (fun pr => pr.1 == p)).map (·.2)).getD (some []))

/-- `snapd.py` line 49/74: `f"/snap/{snap_name}/current"`. -/
def snap_mount_str (name : String) : String := "/snap/" ++ name ++ "/current"

/-- `snapd.py` lines 54-58: the three candidate locale directories. -/
def locale_dirs (m : Path) : List Path :=
  [m ++ ["usr", "share", "locale"],
   m ++ ["share", "locale"],
   m ++ ["usr", "local", "share", "locale"]]

/-- Inner loop of `_find_locale_files` (lines 61-64): for each entry of a
candidate locale directory, `os.path.join(locale_dir, entry, "LC_MESSAGES")`
is a directory with a truthy (non-empty) `os.listdir` ⟹ add the entry name.
The `and` short-circuits: `os.listdir` only runs (and can only raise) after
`os.path.isdir` succeeded. -/
def scanLC (fs : FS) (ld : Path) : List String → List String → Except Unit (List String)
  | [], acc => .ok acc
  | e :: es, acc =>
      if isdir fs (ld ++ [e, "LC_MESSAGES"]) then
        match listdir fs (ld ++ [e, "LC_MESSAGES"]) with
        | .error u => .error u
        | .ok l => scanLC fs ld es (if l.isEmpty then acc else acc.insert e)
      else scanLC fs ld es acc

/-- Outer loop of `_find_locale_files` (lines 59-64): walk each candidate
directory that exists; `os.listdir(locale_dir)` may raise. -/
def scanDirs (fs : FS) : List Path → List String → Except Unit (List String)
  | [], acc => .ok acc
  | d :: ds, acc =>
      if isdir fs d then
        match listdir fs d with
        | .error u => .error u
        | .ok entries =>
            match scanLC fs d entries acc with
            | .error u => .error u
            | .ok acc2 => scanDirs fs ds acc2
      else scanDirs fs ds acc

/-- `_find_locale_files` (snapd.py lines 46-66): returns `[]` when the mount
root is not a directory, else the sorted set of language-code entries whose
`LC_MESSAGES` subdirectory is non-empty. The `languages` set is modelled as
a duplicate-free list grown with `List.insert`. `PermissionError` from
`os.listdir` propagates (modelled as `.error`). -/
def find_locale_files (fs : FS) (name : String) : Except Unit (List String) :=
  let m := normalize (snap_mount_str name)
  if isdir fs m then
    match scanDirs fs (locale_dirs m) [] with
    | .error u => .error u
    | .ok s => .ok (pySorted s)
  else .ok []

/-- Whether path `p` is matched by `glob.glob(<mount>/**/*.desktop,
recursive=True)` relative to mount root `m`: strictly below `m`, the last
component ends in `.desktop`, and — per `glob`'s wildcard semantics — no
component below `m` starts with a dot (`*` and `**` never match hidden
names). `glob` matches directories as well as files. -/
def glob_matches (m p : Path) : Bool :=
  m.isPrefixOf p && decide (m.length < p.length)
    && (p.drop m.length).all (fun c => !(startsWithDot c))
    && endsWithDesktop (p.getLast?.getD "")

/-- `glob.glob(os.path.join(snap_mount, "**", "*.desktop"), recursive=True)`
(snapd.py lines 75-80): every existing entry (file or directory) matched by
the pattern. -/
def glob_desktop (fs : FS) (m : Path) : List Path :=
  ((fs.files ++ fs.dirs).filter (fun p => glob_matches m p)).dedup

/-- Key-to-language extraction of `_check_desktop_l10n` lines 94-97:
for a key containing `[` and `]`, take `key.split("[")[1].rstrip("]")`;
when non-empty, the contributed code is `lang.split(".")[0].split("@")[0]`. -/
def extract_lang (key : String) : Option String :=
  if strHasChar '[' key && strHasChar ']' key then
    let lang := rstripRB ((splitOnChar '[' key).getD 1 "")
    if lang = "" then none
    else some (((splitOnChar '@' ((splitOnChar '.' lang).headD "")).headD ""))
  else none

/-- `cp.options("Desktop Entry")`: the keys of the `Desktop Entry` section
merged with the `DEFAULT` section's keys, each passed through the parser's
default `optionxform = str.lower`. -/
def options_of (sections : List (String × List String)) : List String :=
  let dflt := (((sections.find? (fun s => s.1 == "DEFAULT")).map (·.2)).getD [])
  let sect := (((sections.find? (fun s => s.1 == "Desktop Entry")).map (·.2)).getD [])
  (dflt ++ sect).map (fun k => lowerStr k)

/-- Per-file body of the `_check_desktop_l10n` loop (lines 86-99): a file
whose parse raised is skipped (`except Exception: continue`); a file without
a `Desktop Entry` section contributes nothing; otherwise every option key
with a non-empty bracketed suffix contributes its extracted language code. -/
def fileLangs (parsed : DeskParse) (acc : List String) : List String :=
  match parsed with
  | none => acc
  | some sections =>
      if sections.any (fun s => s.1 == "Desktop Entry") then
        (options_of sections).foldl
          (fun a k => match extract_lang k with
            | some l => a.insert l
            | none => a) acc
      else acc

/-- `_check_desktop_l10n` (snapd.py lines 69-101): `none` when the glob finds
no desktop-entry paths, else the sorted set (duplicate-free list) of language
codes collected from all found files. -/
def check_desktop_l10n (fs : FS) (name : String) : Option (List String) :=
  let m := normalize (snap_mount_str name)
  let desktop_files := glob_desktop fs m
  if desktop_files.isEmpty then none
  else
    some (pySorted
      (desktop_files.foldl (fun acc df => fileLangs (getContent fs df) acc) []))

/-- Status classification (snapd.py lines 113-118): `full` / `partial` /
`none` from the two evidence booleans. -/
def statusPolicy (has_locale has_desktop : Bool) : String :=
  if has_locale && has_desktop then "full"
  else if has_locale || has_desktop then "partial"
  else "none"

/-- `desktop_l10n is not None and len(desktop_l10n) > 0` (line 111). -/
def desktopNonEmpty : Option (List String) → Bool
  | none => false
  | some l => decide (0 < l.length)

/-- The LocalizationInfo record built by `get_snap_l10n_info`
(snapd.py lines 126-133). `name` and `version` keep the raw registry values
(snap.get defaults); `publisher` holds the resolved publisher value. -/
structure Info where
  name : JVal
  version : JVal
  publisher : JVal
  languages : List String
  desktop_l10n : Option (List String)
  status : String
deriving DecidableEq

/-- Publisher resolution (snapd.py lines 120-124): on a dict,
`publisher.get("display-name") or publisher.get("username") or ""`;
otherwise `str(publisher) if publisher else ""`. -/
def pubName (publisher : JVal) : JVal :=
  match publisher with
  | .obj kvs =>
      pyOr (pyOr ((kvs.get "display-name").getD .null)
                 ((kvs.get "username").getD .null)) (.str "")
  | v => if pyTruthy v then .str (pyStr v) else .str ""

/-- `get_snap_l10n_info` (snapd.py lines 104-133). A `PermissionError`
escaping `_find_locale_files` propagates out (modelled as `.error`). -/
def getSnapL10nInfo (fs : FS) (snap : JObj) : Except Unit Info :=
  let name := (snap.get "name").getD (.str "")
  match find_locale_files fs (pyStr name) with
  | .error u => .error u
  | .ok languages =>
      let desktop_l10n := check_desktop_l10n fs (pyStr name)
      let has_locale := decide (0 < languages.length)
      let has_desktop := desktopNonEmpty desktop_l10n
      let status := statusPolicy has_locale has_desktop
      let publisher_name := pubName ((snap.get "publisher").getD (.obj .nil))
      .ok { name := name,
            version := (snap.get "version").getD (.str ""),
            publisher := publisher_name,
            languages := languages,
            desktop_l10n := desktop_l10n,
            status := status }

/-- A JSON array of strings. -/
def strArr : List String → JArr
  | [] => .nil
  | s :: rest => .cons (.str s) (strArr rest)

/-- JSON shape of the exported `desktop_l10n` value: the record's raw value,
`null` when absent, else the list of codes. -/
def desktopJson : Option (List String) → JVal
  | none => .null
  | some l => .arr (strArr l)

/-- One export row (main.py `_on_export_save`, lines 500-503): the dict
comprehension `{"name": ..., "status": ..., "languages": len(...),
"desktop_l10n": s.get("desktop_l10n", False)}`. Every record produced by
`get_snap_l10n_info` carries all four keys, so the `.get` defaults are dead:
`desktop_l10n` exports the stored value itself (None or list). -/
def exportRow (s : Info) : JObj :=
  JObj.ofList
    [("name", s.name),
     ("status", .str s.status),
     ("languages", .num s.languages.length),
     ("desktop_l10n", desktopJson s.desktop_l10n)]

/-- The key sequence of an export row (`data[0].keys()` supplies the CSV
header; `json.dump` writes the same keys per object). -/
def rowKeys : JObj → List String
  | .nil => []
  | .cons k _ tl => k :: rowKeys tl

/-- The `data` list serialized identically to CSV rows and to the JSON
array (main.py lines 500-513). -/
def exportData (snaps : List Info) : List JObj :=
  snaps.map exportRow

/-- Python exceptions escaping `_snapd_get`: the deliberate
`RuntimeError(message)` (the spec's `RegistryUnavailable`), or the
`AttributeError` from calling `.get` on a non-dict value. -/
inductive PyErr where
  | runtimeError (msg : JVal)
  | attributeError
deriving DecidableEq

/-- Response handling of `_snapd_get` (snapd.py lines 34-38) on the decoded
body: `data.get("type") == "error"` raises
`RuntimeError(data.get("result", {}).get("message", "snapd error"))`
(an `AttributeError` instead when the present `result` value is not a dict);
otherwise returns `data.get("result", data)`. A non-dict body fails at
`data.get` with `AttributeError`. -/
def snapd_get (data : JVal) : Except PyErr JVal :=
  match data with
  | .obj kvs =>
      if kvs.get "type" = some (.str "error") then
        match (kvs.get "result").getD (.obj .nil) with
        | .obj rkvs => .error (.runtimeError ((rkvs.get "message").getD (.str "snapd error")))
        | _ => .error .attributeError
      else .ok ((kvs.get "result").getD data)
  | _ => .error .attributeError

/-- The error message the spec prescribes: `result.message`, defaulting to
the generic `"snapd error"` when absent. -/
def messageOf (kvs : JObj) : JVal :=
  match (kvs.get "result").getD (.obj .nil) with
  | .obj rkvs => (rkvs.get "message").getD (.str "snapd error")
  | _ => .str "snapd error"

/-- Whether the `result` field of a response body is absent or an object —
the shape under which the error branch produces the `RuntimeError`. -/
def resultShapeOK (kvs : JObj) : Bool :=
  match (kvs.get "result").getD (.obj .nil) with
  | .obj _ => true
  | _ => false

deriving instance DecidableEq for Except

/-! ## Concrete filesystem states used as test inputs -/

/-- The empty filesystem. -/
def fsEmpty : FS := { dirs := [], files := [], denied := [], contents := [] }

/-- A mounted snap `pkg` with one desktop-entry file whose keys are
`Name`, `Name[sv]`, `Comment[de_DE]` (the spec's worked example). -/
def fsC3 : FS :=
  { dirs := [["snap"], ["snap", "pkg"], ["snap", "pkg", "current"]],
    files := [["snap", "pkg", "current", "app.desktop"]],
    denied := [],
    contents := [(["snap", "pkg", "current", "app.desktop"],
      some [("Desktop Entry", ["Name", "Name[sv]", "Comment[de_DE]"])])] }

/-- A mounted snap `pkg` with one desktop-entry file carrying the key
`Name[sv.UTF-8]` (encoding-suffix example). -/
def fsC3b : FS :=
  { dirs := [["snap"], ["snap", "pkg"], ["snap", "pkg", "current"]],
    files := [["snap", "pkg", "current", "app.desktop"]],
    denied := [],
    contents := [(["snap", "pkg", "current", "app.desktop"],
      some [("Desktop Entry", ["Name", "Name[sv.UTF-8]"])])] }

/-- A mounted snap `pkg` whose only file ending in `.desktop` is the hidden
file `.hidden.desktop` directly under the mount root. -/
def fsC5 : FS :=
  { dirs := [["snap"], ["snap", "pkg"], ["snap", "pkg", "current"]],
    files := [["snap", "pkg", "current", ".hidden.desktop"]],
    denied := [], contents := [] }

/-- A mounted snap `pkg` whose `usr/share/locale/sv/LC_MESSAGES` directory
contains one empty subdirectory and no file at all. -/
def fsC7 : FS :=
  { dirs := [["snap"], ["snap", "pkg"], ["snap", "pkg", "current"],
      ["snap", "pkg", "current", "usr"], ["snap", "pkg", "current", "usr", "share"],
      ["snap", "pkg", "current", "usr", "share", "locale"],
      ["snap", "pkg", "current", "usr", "share", "locale", "sv"],
      ["snap", "pkg", "current", "usr", "share", "locale", "sv", "LC_MESSAGES"],
      ["snap", "pkg", "current", "usr", "share", "locale", "sv", "LC_MESSAGES", "empty_dir"]],
    files := [], denied := [], contents := [] }

/-- A mounted snap `pkg` whose `usr/share/locale` directory exists but is
permission-denied for listing. -/
def fsC2 : FS :=
  { dirs := [["snap"], ["snap", "pkg"], ["snap", "pkg", "current"],
      ["snap", "pkg", "current", "usr"], ["snap", "pkg", "current", "usr", "share"],
      ["snap", "pkg", "current", "usr", "share", "locale"]],
    files := [],
    denied := [["snap", "pkg", "current", "usr", "share", "locale"]],
    contents := [] }

/-- A filesystem with no `/snap` tree at all, but a populated locale tree
under `/etc/current` — the location reached by a traversal name. -/
def fsC4 : FS :=
  { dirs := [["etc"], ["etc", "current"], ["etc", "current", "usr"],
      ["etc", "current", "usr", "share"], ["etc", "current", "usr", "share", "locale"],
      ["etc", "current", "usr", "share", "locale", "sv"],
      ["etc", "current", "usr", "share", "locale", "sv", "LC_MESSAGES"]],
    files := [["etc", "current", "usr", "share", "locale", "sv", "LC_MESSAGES", "app.mo"]],
    denied := [], contents := [] }

/-- A mounted snap `pkg` with both a populated `sv` locale tree and a
desktop-entry file with a `Name[sv]` key. -/
def fsFull : FS :=
  { dirs := [["snap"], ["snap", "pkg"], ["snap", "pkg", "current"],
      ["snap", "pkg", "current", "usr"], ["snap", "pkg", "current", "usr", "share"],
      ["snap", "pkg", "current", "usr", "share", "locale"],
      ["snap", "pkg", "current", "usr", "share", "locale", "sv"],
      ["snap", "pkg", "current", "usr", "share", "locale", "sv", "LC_MESSAGES"]],
    files := [["snap", "pkg", "current", "usr", "share", "locale", "sv", "LC_MESSAGES", "app.mo"],
      ["snap", "pkg", "current", "app.desktop"]],
    denied := [],
    contents := [(["snap", "pkg", "current", "app.desktop"],
      some [("Desktop Entry", ["Name", "Name[sv]"])])] }

/-- A sample record with display metadata filled in, as `get_snap_l10n_info`
shapes them. -/
def infoSv : Info :=
  { name := .str "pkg", version := .str "1.0", publisher := .str "pub",
    languages := ["sv"], desktop_l10n := some ["sv"], status := "full" }

/-- The record `get_snap_l10n_info` produces on the empty filesystem for an
empty registry record. -/
def infoNone : Info :=
  { name := .str "", version := .str "", publisher := .str "",
    languages := [], desktop_l10n := none, status := "none" }

/-! ## Order facts about the lexicographic comparators -/

theorem chLe_total : ∀ a b : List Char, chLe a b = true ∨ chLe b a = true := by
  intro a
  induction a with
  | nil => intro b; left; rfl
  | cons x xs ih =>
      intro b
      cases b with
      | nil => right; rfl
      | cons y ys =>
          rcases lt_trichotomy x y with h | h | h
          · left; simp [chLe, h]
          · subst h
            rcases ih ys with h' | h'
            · left; simp [chLe, lt_irrefl, h']
            · right; simp [chLe, lt_irrefl, h']
          · right; simp [chLe, h]

theorem chLe_trans : ∀ a b c : List Char,
    chLe a b = true → chLe b c = true → chLe a c = true := by
  intro a
  induction a with
  | nil => intro b c _ _; rfl
  | cons x xs ih =>
      intro b c hab hbc
      cases b with
      | nil => simp [chLe] at hab
      | cons y ys =>
          cases c with
          | nil => simp [chLe] at hbc
          | cons z zs =>
              rcases lt_trichotomy x y with hxy | hxy | hxy
              · rcases lt_trichotomy y z with hyz | hyz | hyz
                · simp [chLe, lt_trans hxy hyz]
                · subst hyz; simp [chLe, hxy]
                · simp [chLe, asymm hyz, hyz] at hbc
              · subst hxy
                rcases lt_trichotomy x z with hxz | hxz | hxz
                · simp [chLe, hxz]
                · subst hxz
                  simp only [chLe, lt_irrefl, if_false] at hab hbc ⊢
                  exact ih ys zs hab hbc
                · simp [chLe, asymm hxz, hxz] at hbc
              · simp [chLe, asymm hxy, hxy] at hab

theorem chLe_antisymm : ∀ a b : List Char,
    chLe a b = true → chLe b a = true → a = b := by
  intro a
  induction a with
  | nil =>
      intro b _ hba
      cases b with
      | nil => rfl
      | cons y ys => simp [chLe] at hba
  | cons x xs ih =>
      intro b hab hba
      cases b with
      | nil => simp [chLe] at hab
      | cons y ys =>
          rcases lt_trichotomy x y with h | h | h
          · simp [chLe, asymm h, h] at hba
          · subst h
            simp only [chLe, lt_irrefl, if_false] at hab hba
            rw [ih ys hab hba]
          · simp [chLe, asymm h, h] at hab

theorem chLt_of_chLe_of_ne : ∀ a b : List Char,
    chLe a b = true → a ≠ b → chLt a b = true := by
  intro a
  induction a with
  | nil =>
      intro b _ hne
      cases b with
      | nil => exact absurd rfl hne
      | cons y ys => rfl
  | cons x xs ih =>
      intro b hab hne
      cases b with
      | nil => simp [chLe] at hab
      | cons y ys =>
          rcases lt_trichotomy x y with h | h | h
          · simp [chLt, h]
          · subst h
            simp only [chLe, lt_irrefl, if_false] at hab
            simp only [chLt, lt_irrefl, if_false]
            exact ih ys hab (fun hx => hne (by rw [hx]))
          · simp [chLe, asymm h, h] at hab

instance : IsTotal String pyLe := ⟨fun a b => chLe_total a.data b.data⟩

instance : IsTrans String pyLe := ⟨fun a b c => chLe_trans a.data b.data c.data⟩

/-- Two strings with equal character data are equal. -/
theorem str_eq_of_data_eq {a b : String} (h : a.data = b.data) : a = b := by
  cases a; cases b; exact congrArg String.mk h

/-- A `pyLe`-sorted duplicate-free list is strictly ascending under `strLtB`. -/
theorem pairwise_strLt_of_sorted_nodup {l : List String}
    (hs : l.Sorted pyLe) (hn : l.Nodup) :
    l.Pairwise (fun a b => strLtB a b = true) := by
  have hp := List.Pairwise.and hs hn
  exact hp.imp (fun h =>
    chLt_of_chLe_of_ne _ _ h.1 (fun hd => h.2 (str_eq_of_data_eq hd)))

/-- `pySorted` output: membership is preserved. -/
theorem mem_pySorted {l : List String} {x : String} : x ∈ pySorted l ↔ x ∈ l :=
  List.mem_insertionSort pyLe

/-- `pySorted` of a duplicate-free list is strictly ascending (hence also
duplicate-free). -/
theorem pySorted_strict {l : List String} (hn : l.Nodup) :
    (pySorted l).Pairwise (fun a b => strLtB a b = true) :=
  pairwise_strLt_of_sorted_nodup (List.sorted_insertionSort pyLe l)
    ((List.perm_insertionSort pyLe l).nodup_iff.mpr hn)

/-! ## Lemmas about the filesystem probes -/

theorem listdir_eq_ok {fs : FS} {p : Path} {l : List String}
    (h : listdir fs p = .ok l) : l = childNames fs p := by
  unfold listdir at h
  by_cases hp : p ∈ fs.denied
  · simp [hp] at h
  · simp only [hp, if_false] at h
    exact (Except.ok.inj h).symm

theorem listdir_of_no_denied {fs : FS} (hd : fs.denied = []) (p : Path) :
    listdir fs p = .ok (childNames fs p) := by
  unfold listdir
  simp [hd]

theorem scanLC_nodup {fs : FS} {ld : Path} :
    ∀ (es acc : List String) (s : List String), acc.Nodup →
      scanLC fs ld es acc = .ok s → s.Nodup := by
  intro es
  induction es with
  | nil =>
      intro acc s hn h
      exact (Except.ok.inj h) ▸ hn
  | cons e es ih =>
      intro acc s hn h
      simp only [scanLC] at h
      by_cases hd : isdir fs (ld ++ [e, "LC_MESSAGES"]) = true
      · rw [hd] at h
        simp only [if_true] at h
        cases hl : listdir fs (ld ++ [e, "LC_MESSAGES"]) with
        | error u => rw [hl] at h; simp at h
        | ok l =>
            rw [hl] at h
            simp only [] at h
            by_cases he : l.isEmpty = true
            · rw [he] at h
              simp only [if_true] at h
              exact ih acc s hn h
            · rw [Bool.not_eq_true] at he
              simp only [he, Bool.false_eq_true, if_false] at h
              exact ih (acc.insert e) s hn.insert h
      · rw [Bool.not_eq_true] at hd
        simp only [hd, Bool.false_eq_true, if_false] at h
        exact ih acc s hn h

theorem scanLC_mem {fs : FS} {ld : Path} :
    ∀ (es acc : List String) (s : List String),
      scanLC fs ld es acc = .ok s →
      ∀ x, x ∈ s ↔ x ∈ acc ∨ (x ∈ es ∧ lcOK fs ld x) := by
  intro es
  induction es with
  | nil =>
      intro acc s h x
      rw [← Except.ok.inj h]
      simp
  | cons e es ih =>
      intro acc s h x
      simp only [scanLC] at h
      by_cases hd : isdir fs (ld ++ [e, "LC_MESSAGES"]) = true
      · rw [hd] at h
        simp only [if_true] at h
        cases hl : listdir fs (ld ++ [e, "LC_MESSAGES"]) with
        | error u => rw [hl] at h; simp at h
        | ok l =>
            rw [hl] at h
            simp only [] at h
            have hcn : l = childNames fs (ld ++ [e, "LC_MESSAGES"]) := listdir_eq_ok hl
            by_cases he : l.isEmpty = true
            · rw [he] at h
              simp only [if_true] at h
              have hle : childNames fs (ld ++ [e, "LC_MESSAGES"]) = [] := by
                rw [← hcn]; exact List.isEmpty_iff.mp he
              rw [ih acc s h x]
              constructor
              · rintro (hx | ⟨hxes, hok⟩)
                · exact Or.inl hx
                · exact Or.inr ⟨List.mem_cons_of_mem e hxes, hok⟩
              · rintro (hx | ⟨hxc, hok⟩)
                · exact Or.inl hx
                · rcases List.mem_cons.mp hxc with hxe | hxes
                  · subst hxe; exact absurd hle hok.2
                  · exact Or.inr ⟨hxes, hok⟩
            · rw [Bool.not_eq_true] at he
              simp only [he, Bool.false_eq_true, if_false] at h
              have hlne : childNames fs (ld ++ [e, "LC_MESSAGES"]) ≠ [] := by
                rw [← hcn]
                intro hnil
                rw [hnil] at he
                simp at he
              rw [ih (acc.insert e) s h x]
              rw [List.mem_insert_iff]
              constructor
              · rintro ((hx | hx) | ⟨hxes, hok⟩)
                · subst hx; exact Or.inr ⟨List.mem_cons_self x es, hd, hlne⟩
                · exact Or.inl hx
                · exact Or.inr ⟨List.mem_cons_of_mem e hxes, hok⟩
              · rintro (hx | ⟨hxc, hok⟩)
                · exact Or.inl (Or.inr hx)
                · rcases List.mem_cons.mp hxc with hxe | hxes
                  · exact Or.inl (Or.inl hxe)
                  · exact Or.inr ⟨hxes, hok⟩
      · rw [Bool.not_eq_true] at hd
        simp only [hd, Bool.false_eq_true, if_false] at h
        rw [ih acc s h x]
        constructor
        · rintro (hx | ⟨hxes, hok⟩)
          · exact Or.inl hx
          · exact Or.inr ⟨List.mem_cons_of_mem e hxes, hok⟩
        · rintro (hx | ⟨hxc, hok⟩)
          · exact Or.inl hx
          · rcases List.mem_cons.mp hxc with hxe | hxes
            · subst hxe
              exact absurd hok.1 (by simp [hd])
            · exact Or.inr ⟨hxes, hok⟩

theorem scanDirs_nodup {fs : FS} :
    ∀ (ds : List Path) (acc : List String) (s : List String), acc.Nodup →
      scanDirs fs ds acc = .ok s → s.Nodup := by
  intro ds
  induction ds with
  | nil =>
      intro acc s hn h
      exact (Except.ok.inj h) ▸ hn
  | cons d ds ih =>
      intro acc s hn h
      simp only [scanDirs] at h
      by_cases hd : isdir fs d = true
      · rw [hd] at h
        simp only [if_true] at h
        cases hl : listdir fs d with
        | error u => rw [hl] at h; simp at h
        | ok entries =>
            rw [hl] at h
            simp only [] at h
            cases hs2 : scanLC fs d entries acc with
            | error u => rw [hs2] at h; simp at h
            | ok acc2 =>
                rw [hs2] at h
                simp only [] at h
                exact ih acc2 s (scanLC_nodup entries acc acc2 hn hs2) h
      · rw [Bool.not_eq_true] at hd
        simp only [hd, Bool.false_eq_true, if_false] at h
        exact ih acc s hn h

theorem scanDirs_mem {fs : FS} :
    ∀ (ds : List Path) (acc : List String) (s : List String),
      scanDirs fs ds acc = .ok s →
      ∀ x, x ∈ s ↔ x ∈ acc ∨
        ∃ d ∈ ds, isdir fs d = true ∧ x ∈ childNames fs d ∧ lcOK fs d x := by
  intro ds
  induction ds with
  | nil =>
      intro acc s h x
      rw [← Except.ok.inj h]
      simp
  | cons d ds ih =>
      intro acc s h x
      simp only [scanDirs] at h
      by_cases hd : isdir fs d = true
      · rw [hd] at h
        simp only [if_true] at h
        cases hl : listdir fs d with
        | error u => rw [hl] at h; simp at h
        | ok entries =>
            rw [hl] at h
            simp only [] at h
            cases hs2 : scanLC fs d entries acc with
            | error u => rw [hs2] at h; simp at h
            | ok acc2 =>
                rw [hs2] at h
                simp only [] at h
                have hen : entries = childNames fs d := listdir_eq_ok hl
                rw [ih acc2 s h x, scanLC_mem entries acc acc2 hs2 x]
                constructor
                · rintro ((hx | ⟨hxe, hok⟩) | ⟨d2, hd2, hx⟩)
                  · exact Or.inl hx
                  · exact Or.inr ⟨d, List.mem_cons_self d ds, hd, hen ▸ hxe, hok⟩
                  · exact Or.inr ⟨d2, List.mem_cons_of_mem d hd2, hx⟩
                · rintro (hx | ⟨d2, hd2, hx⟩)
                  · exact Or.inl (Or.inl hx)
                  · rcases List.mem_cons.mp hd2 with hde | hdm
                    · subst hde
                      exact Or.inl (Or.inr ⟨hen ▸ hx.2.1, hx.2.2⟩)
                    · exact Or.inr ⟨d2, hdm, hx⟩
      · rw [Bool.not_eq_true] at hd
        simp only [hd, Bool.false_eq_true, if_false] at h
        rw [ih acc s h x]
        constructor
        · rintro (hx | ⟨d2, hd2, hx⟩)
          · exact Or.inl hx
          · exact Or.inr ⟨d2, List.mem_cons_of_mem d hd2, hx⟩
        · rintro (hx | ⟨d2, hd2, hx⟩)
          · exact Or.inl hx
          · rcases List.mem_cons.mp hd2 with hde | hdm
            · subst hde
              exact absurd hx.1 (by simp [hd])
            · exact Or.inr ⟨d2, hdm, hx⟩

theorem scanLC_ok_of_no_denied {fs : FS} {ld : Path} (hd : fs.denied = []) :
    ∀ (es acc : List String), ∃ s, scanLC fs ld es acc = .ok s := by
  intro es
  induction es with
  | nil => intro acc; exact ⟨acc, rfl⟩
  | cons e es ih =>
      intro acc
      simp only [scanLC]
      by_cases hid : isdir fs (ld ++ [e, "LC_MESSAGES"]) = true
      · rw [hid]
        simp only [if_true]
        rw [listdir_of_no_denied hd]
        exact ih _
      · rw [Bool.not_eq_true] at hid
        simp only [hid, Bool.false_eq_true, if_false]
        exact ih acc

theorem scanDirs_ok_of_no_denied {fs : FS} (hd : fs.denied = []) :
    ∀ (ds : List Path) (acc : List String), ∃ s, scanDirs fs ds acc = .ok s := by
  intro ds
  induction ds with
  | nil => intro acc; exact ⟨acc, rfl⟩
  | cons d ds ih =>
      intro acc
      simp only [scanDirs]
      by_cases hid : isdir fs d = true
      · rw [hid]
        simp only [if_true]
        rw [listdir_of_no_denied hd]
        simp only []
        obtain ⟨s2, hs2⟩ := @scanLC_ok_of_no_denied fs d hd (childNames fs d) acc
        rw [hs2]
        exact ih s2
      · rw [Bool.not_eq_true] at hid
        simp only [hid, Bool.false_eq_true, if_false]
        exact ih acc

theorem find_locale_files_ok_of_no_denied {fs : FS} (hd : fs.denied = [])
    (name : String) : ∃ l, find_locale_files fs name = .ok l := by
  unfold find_locale_files
  simp only []
  by_cases hid : isdir fs (normalize (snap_mount_str name)) = true
  · rw [hid]
    simp only [if_true]
    obtain ⟨s, hs⟩ :=
      scanDirs_ok_of_no_denied hd (locale_dirs (normalize (snap_mount_str name))) []
    rw [hs]
    exact ⟨pySorted s, rfl⟩
  · rw [Bool.not_eq_true] at hid
    simp only [hid, Bool.false_eq_true, if_false]
    exact ⟨[], rfl⟩

/-- Inversion of a successful locale probe: either the mount root is
missing and the result is `[]`, or it is the sorted set produced by the
candidate-directory scan. -/
theorem find_locale_files_inversion {fs : FS} {name : String} {l : List String}
    (h : find_locale_files fs name = .ok l) :
    (isdir fs (normalize (snap_mount_str name)) = false ∧ l = []) ∨
    (isdir fs (normalize (snap_mount_str name)) = true ∧
      ∃ s, scanDirs fs (locale_dirs (normalize (snap_mount_str name))) [] = .ok s ∧
        l = pySorted s) := by
  unfold find_locale_files at h
  simp only [] at h
  by_cases hid : isdir fs (normalize (snap_mount_str name)) = true
  · rw [hid] at h
    simp only [if_true] at h
    cases hs : scanDirs fs (locale_dirs (normalize (snap_mount_str name))) [] with
    | error u => rw [hs] at h; simp at h
    | ok s =>
        rw [hs] at h
        simp only [] at h
        exact Or.inr ⟨hid, s, rfl, (Except.ok.inj h).symm⟩
  · rw [Bool.not_eq_true] at hid
    simp only [hid, Bool.false_eq_true, if_false] at h
    exact Or.inl ⟨hid, (Except.ok.inj h).symm⟩

theorem langsFold_nodup :
    ∀ (ks : List String) (acc : List String), acc.Nodup →
      (ks.foldl (fun a k => match extract_lang k with
        | some l => a.insert l
        | none => a) acc).Nodup := by
  intro ks
  induction ks with
  | nil => intro acc hn; exact hn
  | cons k ks ih =>
      intro acc hn
      simp only [List.foldl_cons]
      cases extract_lang k with
      | none => exact ih acc hn
      | some lang => exact ih (acc.insert lang) hn.insert

theorem fileLangs_nodup (parsed : DeskParse) (acc : List String) (hn : acc.Nodup) :
    (fileLangs parsed acc).Nodup := by
  cases parsed with
  | none => exact hn
  | some sections =>
      simp only [fileLangs]
      by_cases hs : sections.any (fun s => s.1 == "Desktop Entry") = true
      · rw [hs]
        simp only [if_true]
        exact langsFold_nodup (options_of sections) acc hn
      · rw [Bool.not_eq_true] at hs
        simp only [hs, Bool.false_eq_true, if_false]
        exact hn

theorem desktopFold_nodup {fs : FS} :
    ∀ (dfs : List Path) (acc : List String), acc.Nodup →
      (dfs.foldl (fun acc df => fileLangs (getContent fs df) acc) acc).Nodup := by
  intro dfs
  induction dfs with
  | nil => intro acc hn; exact hn
  | cons df dfs ih =>
      intro acc hn
      simp only [List.foldl_cons]
      exact ih _ (fileLangs_nodup (getContent fs df) acc hn)

theorem mem_glob_desktop {fs : FS} {m : Path} {p : Path} :
    p ∈ glob_desktop fs m ↔
      (p ∈ fs.files ∨ p ∈ fs.dirs) ∧ glob_matches m p = true := by
  unfold glob_desktop
  rw [List.mem_dedup, List.mem_filter, List.mem_append]

theorem check_desktop_l10n_none_iff {fs : FS} {name : String} :
    check_desktop_l10n fs name = none ↔
      glob_desktop fs (normalize (snap_mount_str name)) = [] := by
  unfold check_desktop_l10n
  simp only []
  by_cases he : (glob_desktop fs (normalize (snap_mount_str name))).isEmpty = true
  · rw [he]
    simp only [if_true]
    simp [List.isEmpty_iff.mp he]
  · rw [Bool.not_eq_true] at he
    simp only [he, Bool.false_eq_true, if_false]
    constructor
    · intro h; simp at h
    · intro h; rw [h] at he; simp at he

theorem check_desktop_l10n_some_inversion {fs : FS} {name : String} {l : List String}
    (h : check_desktop_l10n fs name = some l) :
    l = pySorted ((glob_desktop fs (normalize (snap_mount_str name))).foldl
      (fun acc df => fileLangs (getContent fs df) acc) []) ∧
    glob_desktop fs (normalize (snap_mount_str name)) ≠ [] := by
  unfold check_desktop_l10n at h
  simp only [] at h
  by_cases he : (glob_desktop fs (normalize (snap_mount_str name))).isEmpty = true
  · rw [he] at h
    simp at h
  · rw [Bool.not_eq_true] at he
    simp only [he, Bool.false_eq_true, if_false] at h
    refine ⟨(Option.some.inj h).symm, ?_⟩
    intro hnil
    rw [hnil] at he
    simp at he

/-- Inversion of a successful `getSnapL10nInfo`: every field of the returned
record in terms of the probes and the registry record. -/
theorem getSnapL10nInfo_inversion {fs : FS} {snap : JObj} {info : Info}
    (h : getSnapL10nInfo fs snap = .ok info) :
    find_locale_files fs (pyStr ((snap.get "name").getD (.str ""))) = .ok info.languages
  ∧ info.desktop_l10n = check_desktop_l10n fs (pyStr ((snap.get "name").getD (.str "")))
  ∧ info.status = statusPolicy (decide (0 < info.languages.length))
      (desktopNonEmpty info.desktop_l10n)
  ∧ info.name = (snap.get "name").getD (.str "")
  ∧ info.version = (snap.get "version").getD (.str "")
  ∧ info.publisher = pubName ((snap.get "publisher").getD (.obj .nil)) := by
  unfold getSnapL10nInfo at h
  simp only [] at h
  cases hf : find_locale_files fs (pyStr ((snap.get "name").getD (.str ""))) with
  | error u => rw [hf] at h; simp at h
  | ok langs =>
      rw [hf] at h
      simp only [] at h
      have h2 := Except.ok.inj h
      subst h2
      exact ⟨rfl, rfl, rfl, rfl, rfl, rfl⟩

theorem length_pos_decide_iff {l : List String} :
    decide (0 < l.length) = true ↔ l ≠ [] := by
  cases l <;> simp

theorem desktopNonEmpty_true_iff {d : Option (List String)} :
    desktopNonEmpty d = true ↔ ∃ l, d = some l ∧ l ≠ [] := by
  cases d with
  | none => simp [desktopNonEmpty]
  | some l => cases l <;> simp [desktopNonEmpty]

theorem desktopNonEmpty_false_iff {d : Option (List String)} :
    desktopNonEmpty d = false ↔ d = none ∨ d = some [] := by
  cases d with
  | none => simp [desktopNonEmpty]
  | some l => cases l <;> simp [desktopNonEmpty]

/-- The classification table, expressed against the record data. -/
theorem classification_iffs (langs : List String) (d : Option (List String)) :
    (statusPolicy (decide (0 < langs.length)) (desktopNonEmpty d) = "full" ↔
      langs ≠ [] ∧ ∃ dl, d = some dl ∧ dl ≠ [])
  ∧ (statusPolicy (decide (0 < langs.length)) (desktopNonEmpty d) = "none" ↔
      langs = [] ∧ (d = none ∨ d = some []))
  ∧ (statusPolicy (decide (0 < langs.length)) (desktopNonEmpty d) = "partial" ↔
      ¬(langs ≠ [] ∧ ∃ dl, d = some dl ∧ dl ≠ []) ∧
      ¬(langs = [] ∧ (d = none ∨ d = some []))) := by
  rcases d with _ | dl
  · cases langs <;> simp [statusPolicy, desktopNonEmpty]
  · cases dl <;> cases langs <;> simp [statusPolicy, desktopNonEmpty]

/-! ## Claim theorems -/

/-- **C1.** For every package record the computed status is a pure function
of exactly two booleans — `languages` non-empty, and `desktop_l10n`
non-absent-and-non-empty: `full` iff both hold, `none` iff neither holds,
`partial` in every other case; no other field of the record influences it. -/
theorem C1_status_pure_classification (fs : FS) (snap : JObj) (info : Info)
    (h : getSnapL10nInfo fs snap = .ok info) :
    info.status = statusPolicy (decide (0 < info.languages.length))
        (desktopNonEmpty info.desktop_l10n)
  ∧ (info.status = "full" ↔
      info.languages ≠ [] ∧ ∃ dl, info.desktop_l10n = some dl ∧ dl ≠ [])
  ∧ (info.status = "none" ↔
      info.languages = [] ∧ (info.desktop_l10n = none ∨ info.desktop_l10n = some []))
  ∧ (info.status = "partial" ↔
      ¬(info.languages ≠ [] ∧ ∃ dl, info.desktop_l10n = some dl ∧ dl ≠ []) ∧
      ¬(info.languages = [] ∧ (info.desktop_l10n = none ∨ info.desktop_l10n = some []))) := by
  have hst := (getSnapL10nInfo_inversion h).2.2.1
  refine ⟨hst, ?_⟩
  rw [hst]
  exact classification_iffs info.languages info.desktop_l10n

/-- Witness for C1 at a concrete fully-translated package. -/
theorem C1_witness :
    ({ name := JVal.str "pkg", version := JVal.str "", publisher := JVal.str "",
       languages := ["sv"], desktop_l10n := some ["sv"], status := "full" } : Info).status
      = "full" := by
  have h := C1_status_pure_classification fsFull (JObj.ofList [("name", JVal.str "pkg")])
    { name := JVal.str "pkg", version := JVal.str "", publisher := JVal.str "",
      languages := ["sv"], desktop_l10n := some ["sv"], status := "full" } (by decide)
  exact h.2.1.mpr ⟨by decide, ⟨["sv"], rfl, by decide⟩⟩

/-- **C2 counterexample.** A locale directory that exists but whose listing
is permission-denied makes `get_snap_l10n_info` raise (the `PermissionError`
from `os.listdir` is not caught), instead of degrading to "no evidence". -/
theorem C2_counterexample :
    fsC2.denied = [["snap", "pkg", "current", "usr", "share", "locale"]]
  ∧ getSnapL10nInfo fsC2 (JObj.ofList [("name", JVal.str "pkg")]) = .error () := by
  decide

/-- **C2 (amended).** Whenever no directory listing is permission-denied,
`get_snap_l10n_info` always returns a well-formed record — missing
directories and malformed desktop-entry files degrade to "no evidence"
(the glob and the desktop parser swallow their errors). -/
theorem C2_no_denied_total (fs : FS) (snap : JObj) (hd : fs.denied = []) :
    ∃ info, getSnapL10nInfo fs snap = .ok info := by
  unfold getSnapL10nInfo
  simp only []
  obtain ⟨l, hl⟩ :=
    find_locale_files_ok_of_no_denied hd (pyStr ((snap.get "name").getD (.str "")))
  rw [hl]
  exact ⟨_, rfl⟩

/-- Witness for C2 (amended) on the empty filesystem. -/
theorem C2_witness :
    fsEmpty.denied = [] ∧ ∃ info, getSnapL10nInfo fsEmpty JObj.nil = .ok info :=
  ⟨rfl, C2_no_denied_total fsEmpty JObj.nil rfl⟩

/-- **C3 counterexample.** The INI parser lowercases option keys
(`optionxform = str.lower`), so the file with keys `Name`, `Name[sv]`,
`Comment[de_DE]` yields `{"de_de", "sv"}` — not the claimed
`{"sv", "de_DE"}`. -/
theorem C3_counterexample :
    check_desktop_l10n fsC3 "pkg" = some ["de_de", "sv"]
  ∧ check_desktop_l10n fsC3 "pkg" ≠ some ["de_DE", "sv"]
  ∧ check_desktop_l10n fsC3 "pkg" ≠ some ["sv", "de_DE"] := by
  decide

/-- **C3 (amended).** A bracketed key contributes the language code written
inside the brackets **lowercased** (the parser lowercases keys), with any
trailing `.codeset` or `@modifier` stripped: the example file yields
`{"de_de", "sv"}`, and `Name[sv.UTF-8]` / `Name[sv@latin]` contribute `sv`. -/
theorem C3_amended :
    check_desktop_l10n fsC3 "pkg" = some ["de_de", "sv"]
  ∧ check_desktop_l10n fsC3b "pkg" = some ["sv"]
  ∧ extract_lang (lowerStr "Comment[de_DE]") = some "de_de"
  ∧ extract_lang (lowerStr "Name[sv.UTF-8]") = some "sv"
  ∧ extract_lang (lowerStr "Name[sv@latin]") = some "sv" := by
  decide

/-- **C4 (code bug).** Package names are used unvalidated as path segments:
for the registry name `"../../etc"` the mount-root string resolves to
`/etc/current` — not under `/snap` — and the locale probe happily reads a
locale tree there (every directory of `fsC4` lives under `/etc`). -/
theorem C4_traversal_escape :
    normalize (snap_mount_str "../../etc") = ["etc", "current"]
  ∧ (["snap"] : Path).isPrefixOf (normalize (snap_mount_str "../../etc")) = false
  ∧ find_locale_files fsC4 "../../etc" = .ok ["sv"]
  ∧ (fsC4.dirs ++ fsC4.files).all (fun p => p.headD "" == "etc") = true := by
  decide

/-- **C5 counterexample.** A hidden file `.hidden.desktop` under the mount
root ends in `.desktop` and exists on disk, yet the probe is absent:
`glob`'s wildcards never match names starting with a dot. -/
theorem C5_counterexample :
    (["snap", "pkg", "current"] : Path).isPrefixOf
        ["snap", "pkg", "current", ".hidden.desktop"] = true
  ∧ endsWithDesktop ".hidden.desktop" = true
  ∧ fsC5.files = [["snap", "pkg", "current", ".hidden.desktop"]]
  ∧ check_desktop_l10n fsC5 "pkg" = none := by
  decide

/-- **C5 (amended).** The probe is absent exactly when the recursive glob
finds nothing: no entry (file or directory) strictly below the mount root
whose final component ends in `.desktop`, reached through non-hidden
components only. Otherwise the probe returns a list (at worst empty). -/
theorem C5_absent_iff_glob_empty (fs : FS) (name : String) :
    check_desktop_l10n fs name = none ↔
      ¬∃ p, (p ∈ fs.files ∨ p ∈ fs.dirs) ∧
        glob_matches (normalize (snap_mount_str name)) p = true := by
  rw [check_desktop_l10n_none_iff]
  constructor
  · rintro h ⟨p, hp, hm⟩
    have hmem := mem_glob_desktop.mpr ⟨hp, hm⟩
    rw [h] at hmem
    exact List.not_mem_nil p hmem
  · intro h
    by_contra hne
    obtain ⟨p, hp⟩ := List.exists_mem_of_ne_nil _ hne
    exact h ⟨p, mem_glob_desktop.mp hp⟩

/-- Only a body that is an object with `type == "error"` can produce the
deliberate `RuntimeError` (the spec's `RegistryUnavailable`). -/
theorem snapd_get_runtimeError_inversion (data : JVal) (m : JVal)
    (h : snapd_get data = .error (.runtimeError m)) :
    ∃ kvs2, data = .obj kvs2 ∧ kvs2.get "type" = some (.str "error") := by
  cases data with
  | obj kvs =>
      refine ⟨kvs, rfl, ?_⟩
      by_cases ht : kvs.get "type" = some (.str "error")
      · exact ht
      · exfalso
        unfold snapd_get at h
        simp only [] at h
        rw [if_neg ht] at h
        exact Except.noConfusion h
  | null => simp [snapd_get] at h
  | bool b => simp [snapd_get] at h
  | num n => simp [snapd_get] at h
  | str s => simp [snapd_get] at h
  | arr xs => simp [snapd_get] at h

/-- **C6 counterexample.** A response whose `type` is `"error"` but whose
`result` is a string fails with an `AttributeError` (from
`"oops".get(...)`), not with the message-carrying `RuntimeError` — so
"fails with `RegistryUnavailable` exactly when `type == "error"`" is false
as stated. -/
theorem C6_counterexample :
    (JObj.ofList [("type", JVal.str "error"), ("result", JVal.str "oops")]).get "type"
        = some (JVal.str "error")
  ∧ snapd_get (.obj (JObj.ofList [("type", JVal.str "error"), ("result", JVal.str "oops")]))
        = .error .attributeError
  ∧ ∀ m, PyErr.attributeError ≠ PyErr.runtimeError m := by
  refine ⟨by decide, by decide, fun m h => PyErr.noConfusion h⟩

/-- **C6 (amended).** For an object body whose `result` field is absent or
an object: the call fails with the message-carrying `RuntimeError` iff
`type == "error"`, the message is `result.message` defaulting to
`"snapd error"`, and otherwise it returns the `result` field, or the whole
body when no `result` field exists. In full generality the `RuntimeError`
arises **only** from a `type == "error"` object body. -/
theorem C6_registry_error_protocol (kvs : JObj) (h : resultShapeOK kvs = true) :
    ((∃ m, snapd_get (.obj kvs) = .error (.runtimeError m)) ↔
        kvs.get "type" = some (.str "error"))
  ∧ (kvs.get "type" = some (.str "error") →
        snapd_get (.obj kvs) = .error (.runtimeError (messageOf kvs)))
  ∧ (kvs.get "type" ≠ some (.str "error") →
        snapd_get (.obj kvs) = .ok ((kvs.get "result").getD (.obj kvs)))
  ∧ (∀ (data : JVal) (m : JVal), snapd_get data = .error (.runtimeError m) →
        ∃ kvs2, data = .obj kvs2 ∧ kvs2.get "type" = some (.str "error")) := by
  by_cases ht : kvs.get "type" = some (.str "error")
  · have hsg : snapd_get (.obj kvs) = .error (.runtimeError (messageOf kvs)) := by
      unfold snapd_get messageOf
      simp only []
      rw [if_pos ht]
      unfold resultShapeOK at h
      cases hr : (kvs.get "result").getD (.obj .nil) with
      | obj rkvs => rfl
      | null => rw [hr] at h; simp at h
      | bool b => rw [hr] at h; simp at h
      | num n => rw [hr] at h; simp at h
      | str s => rw [hr] at h; simp at h
      | arr xs => rw [hr] at h; simp at h
    exact ⟨⟨fun _ => ht, fun _ => ⟨messageOf kvs, hsg⟩⟩, fun _ => hsg,
      fun hne => absurd ht hne, snapd_get_runtimeError_inversion⟩
  · have hsg : snapd_get (.obj kvs) = .ok ((kvs.get "result").getD (.obj kvs)) := by
      unfold snapd_get
      simp only []
      rw [if_neg ht]
    refine ⟨⟨?_, fun hty => absurd hty ht⟩, fun hty => absurd hty ht,
      fun _ => hsg, snapd_get_runtimeError_inversion⟩
    rintro ⟨m, hm⟩
    rw [hsg] at hm
    exact Except.noConfusion hm

/-- Witness for C6 (amended) at the spec's example body. -/
theorem C6_witness :
    resultShapeOK (JObj.ofList [("type", JVal.str "error"),
        ("result", JVal.obj (JObj.ofList [("message", JVal.str "no such daemon")]))]) = true
  ∧ snapd_get (.obj (JObj.ofList [("type", JVal.str "error"),
        ("result", JVal.obj (JObj.ofList [("message", JVal.str "no such daemon")]))]))
      = .error (.runtimeError (.str "no such daemon")) := by
  constructor
  · decide
  · exact (C6_registry_error_protocol (JObj.ofList [("type", JVal.str "error"),
      ("result", JVal.obj (JObj.ofList [("message", JVal.str "no such daemon")]))])
      (by decide)).2.1 (by decide)

/-- **C7 counterexample.** A package whose `sv/LC_MESSAGES` contains one
empty subdirectory — and not a single file anywhere — still counts `sv`:
the code only checks that `os.listdir(lc_path)` is non-empty, not that a
file is inside. -/
theorem C7_counterexample :
    find_locale_files fsC7 "pkg" = .ok ["sv"] ∧ fsC7.files = [] := by
  decide

/-- **C7 (amended).** A language is counted iff, in one of the three fixed
candidate locale directories, a directory entry of that name has an
`LC_MESSAGES` subdirectory with at least one directory **entry** (file or
subdirectory); duplicates collapse; a nonexistent mount root yields `[]`
rather than an error. -/
theorem C7_locale_characterization (fs : FS) (name : String) (l : List String)
    (h : find_locale_files fs name = .ok l) :
    (∀ lang, lang ∈ l ↔
      (isdir fs (normalize (snap_mount_str name)) = true ∧
        ∃ d ∈ locale_dirs (normalize (snap_mount_str name)),
          isdir fs d = true ∧ lang ∈ childNames fs d ∧ lcOK fs d lang))
  ∧ (isdir fs (normalize (snap_mount_str name)) = false → l = []) := by
  rcases find_locale_files_inversion h with ⟨hmiss, hl⟩ | ⟨hdir, s, hs, hl⟩
  · subst hl
    refine ⟨?_, fun _ => rfl⟩
    intro lang
    simp [hmiss]
  · subst hl
    refine ⟨?_, ?_⟩
    · intro lang
      have hmem := scanDirs_mem (locale_dirs (normalize (snap_mount_str name))) [] s hs lang
      rw [mem_pySorted, hmem]
      simp only [List.not_mem_nil, false_or]
      exact ⟨fun hex => ⟨hdir, hex⟩, fun hx => hx.2⟩
    · intro hmiss
      rw [hdir] at hmiss
      exact absurd hmiss (by simp)

/-- Witness for C7 (amended): in `fsFull`, `sv` is counted through the
`usr/share/locale` candidate. -/
theorem C7_witness :
    isdir fsFull (normalize (snap_mount_str "pkg")) = true ∧
      ∃ d ∈ locale_dirs (normalize (snap_mount_str "pkg")),
        isdir fsFull d = true ∧ "sv" ∈ childNames fsFull d ∧ lcOK fsFull d "sv" := by
  have h := C7_locale_characterization fsFull "pkg" ["sv"] (by decide)
  exact (h.1 "sv").mp (by decide)

/-- **C8 counterexample.** An export row for a record whose desktop probe
found `["sv"]` carries the list itself under `desktop_l10n` — a JSON array,
never a boolean: `s.get("desktop_l10n", False)` returns the stored value
because the key is always present. -/
theorem C8_counterexample :
    ∃ info, getSnapL10nInfo fsFull (JObj.ofList [("name", JVal.str "pkg")]) = .ok info
      ∧ (exportRow info).get "desktop_l10n" = some (.arr (.cons (.str "sv") .nil))
      ∧ ∀ b, (exportRow info).get "desktop_l10n" ≠ some (.bool b) := by
  refine ⟨{ name := JVal.str "pkg", version := JVal.str "", publisher := JVal.str "",
            languages := ["sv"], desktop_l10n := some ["sv"], status := "full" },
          by decide, by decide, by decide⟩

/-- **C8 (amended).** Every export row (identical for the CSV rows and the
JSON array) has exactly the four keys `name, status, languages,
desktop_l10n`; `languages` is the integer count of languages; but
`desktop_l10n` is the record's raw tri-state value — `null` when absent,
else the list of codes — not a boolean. -/
theorem C8_export_row_shape (snaps : List Info) (s : Info) (hmem : s ∈ snaps) :
    exportRow s ∈ exportData snaps
  ∧ rowKeys (exportRow s) = ["name", "status", "languages", "desktop_l10n"]
  ∧ (exportRow s).get "languages" = some (.num s.languages.length)
  ∧ (exportRow s).get "desktop_l10n" = some (desktopJson s.desktop_l10n)
  ∧ (s.desktop_l10n = none → (exportRow s).get "desktop_l10n" = some .null)
  ∧ ∀ dl, s.desktop_l10n = some dl →
      (exportRow s).get "desktop_l10n" = some (.arr (strArr dl)) := by
  refine ⟨List.mem_map_of_mem exportRow hmem, rfl, rfl, rfl, ?_, ?_⟩
  · intro hd
    simp [exportRow, JObj.ofList, JObj.get, desktopJson, hd]
  · intro dl hd
    simp [exportRow, JObj.ofList, JObj.get, desktopJson, hd]

/-- Witness for C8 (amended) at a singleton collection. -/
theorem C8_witness :
    exportRow infoSv ∈ exportData [infoSv]
  ∧ rowKeys (exportRow infoSv) = ["name", "status", "languages", "desktop_l10n"] := by
  have h := C8_export_row_shape [infoSv] infoSv (by decide)
  exact ⟨h.1, h.2.1⟩

/-- **C9.** Both probe results — the locale list always, the desktop list
when not absent — are strictly ascending in code-point lexicographic order,
hence duplicate-free: they behave as canonically ordered sets. -/
theorem C9_sorted_nodup (fs : FS) (name : String) (l1 l2 : List String) :
    (find_locale_files fs name = .ok l1 →
      l1.Pairwise (fun a b => strLtB a b = true))
  ∧ (check_desktop_l10n fs name = some l2 →
      l2.Pairwise (fun a b => strLtB a b = true)) := by
  constructor
  · intro h
    rcases find_locale_files_inversion h with ⟨_, hl⟩ | ⟨_, s, hs, hl⟩
    · subst hl
      exact List.Pairwise.nil
    · subst hl
      exact pySorted_strict (scanDirs_nodup _ [] s List.nodup_nil hs)
  · intro h
    obtain ⟨hl, _⟩ := check_desktop_l10n_some_inversion h
    subst hl
    exact pySorted_strict (desktopFold_nodup _ [] List.nodup_nil)

/-- Witness for C9 at concrete probe runs. -/
theorem C9_witness :
    (["sv"] : List String).Pairwise (fun a b => strLtB a b = true)
  ∧ (["de_de", "sv"] : List String).Pairwise (fun a b => strLtB a b = true) :=
  ⟨(C9_sorted_nodup fsFull "pkg" ["sv"] ["sv"]).1 (by decide),
   (C9_sorted_nodup fsC3 "pkg" [] ["de_de", "sv"]).2 (by decide)⟩

/-- **C10 counterexample.** A falsy non-object publisher value (`False`)
yields the empty string, not its string form `"False"`: the conversion
`str(publisher) if publisher else ""` only applies to truthy values. -/
theorem C10_counterexample :
    pyStr (JVal.bool false) = "False"
  ∧ ∃ info, getSnapL10nInfo fsEmpty (JObj.ofList [("publisher", JVal.bool false)]) = .ok info
      ∧ info.publisher = JVal.str ""
      ∧ info.publisher ≠ JVal.str (pyStr (JVal.bool false)) := by
  refine ⟨by decide, infoNone, by decide, by decide, by decide⟩

/-- **C10 (amended).** Missing `name`/`version` default to `""`; a missing
publisher, or a publisher object with neither `display-name` nor
`username`, yields `""`; a **truthy** non-object publisher value is
converted to its string form while a falsy one yields `""`. The returned
record always carries all six fields (by construction of `Info`). -/
theorem C10_metadata_defaults (fs : FS) (snap : JObj) (info : Info)
    (h : getSnapL10nInfo fs snap = .ok info) :
    (snap.get "name" = none → info.name = .str "")
  ∧ (snap.get "version" = none → info.version = .str "")
  ∧ (snap.get "publisher" = none → info.publisher = .str "")
  ∧ (∀ kvs, snap.get "publisher" = some (.obj kvs) →
      kvs.get "display-name" = none → kvs.get "username" = none →
      info.publisher = .str "")
  ∧ (∀ v, snap.get "publisher" = some v → (∀ kvs, v ≠ .obj kvs) →
      info.publisher = if pyTruthy v = true then .str (pyStr v) else .str "") := by
  obtain ⟨-, -, -, hname, hver, hpub⟩ := getSnapL10nInfo_inversion h
  refine ⟨?_, ?_, ?_, ?_, ?_⟩
  · intro hn
    rw [hname, hn]
    rfl
  · intro hv
    rw [hver, hv]
    rfl
  · intro hp
    rw [hpub, hp]
    rfl
  · intro kvs hp hdn hun
    rw [hpub, hp]
    simp [pubName, pyOr, pyTruthy, hdn, hun]
  · intro v hp hobj
    rw [hpub, hp]
    cases v with
    | obj kvs => exact absurd rfl (hobj kvs)
    | null => rfl
    | bool b => rfl
    | num n => rfl
    | str s => rfl
    | arr xs => rfl

/-- Witness for C10 (amended) at an empty registry record. -/
theorem C10_witness :
    infoNone.name = JVal.str "" ∧ infoNone.publisher = JVal.str "" := by
  have h := C10_metadata_defaults fsEmpty JObj.nil infoNone (by decide)
  exact ⟨h.1 rfl, h.2.2.1 rfl⟩

end SnapL10n
